import Mathlib

/-!
# Verification of the csv2numbers transform pipeline

Shallow embedding of `src/csv2numbers/_csv2numbers.py`.  Tables are ordered
lists of labelled columns over cells that are strings, rational numbers or
missing values (pandas `NaN`); the per-row transform functions, the rename,
delete and reformat stages, and the `main` driver are translated function by
function.  Python exceptions are modelled with `Except PyError`.
-/

namespace Csv2Numbers

/-- A pandas column label: an `int` (headerless CSV files label columns
`0, 1, ...`; user references that are digit strings become `int`) or a
string name. -/
inductive Label
  | idx : Nat → Label
  | name : String → Label
deriving DecidableEq, Repr

/-- A cell value after CSV loading: missing (`NaN`), a string, or a number.
Python floats are modelled by rationals; the claims under study only
depend on exact sign tests and absolute values. -/
inductive Cell
  | na
  | str : String → Cell
  | num : Rat → Cell
deriving DecidableEq, Repr

/-- Python truthiness of a cell (`bool(x)`): the empty string and the
number `0` are falsy; `NaN` is truthy in Python. -/
def Cell.truthy : Cell → Bool
  | .na => true
  | .str s => s ≠ ""
  | .num q => q ≠ 0

/-- The Python exceptions the program can raise during conversion. -/
inductive PyError
  | runtimeError (msg : String)
  | valueError (msg : String)
deriving DecidableEq, Repr

/-- Result of Python `float(x)`: a finite value or `nan` (from a `NaN` cell). -/
inductive PyFloat
  | rat (q : Rat)
  | nan
deriving DecidableEq, Repr

/-- Value of a list of ASCII digits, most significant first. -/
def digitsToNat (cs : List Char) : Nat :=
  cs.foldl (fun n c => 10 * n + (c.toNat - 48)) 0

/-- The characters matched by Python's regex `\s` (ASCII range). -/
def isPyWs (c : Char) : Bool :=
  c = ' ' || c = '\t' || c = '\n' || c = '\r' || c = '\x0b' || c = '\x0c'

/-- Python `str.strip()`: drop leading and trailing whitespace. -/
def stripWs (cs : List Char) : List Char :=
  ((cs.dropWhile isPyWs).reverse.dropWhile isPyWs).reverse

/-- Python `str.split(sep)` for a one-character separator, on char lists:
splitting the empty string gives one empty field. -/
def splitOnChar (sep : Char) : List Char → List (List Char)
  | [] => [[]]
  | c :: rest =>
    if c = sep then [] :: splitOnChar sep rest
    else
      match splitOnChar sep rest with
      | g :: gs => (c :: g) :: gs
      | [] => [[c]]

/-- Python `s.split(sep)` for a one-character separator. -/
def pySplit (s : String) (sep : Char) : List String :=
  (splitOnChar sep s.data).map (fun cs => ⟨cs⟩)

/-- Python `sep.join(parts)`. -/
def joinWith (sep : String) : List String → String
  | [] => ""
  | [x] => x
  | x :: rest => x ++ sep ++ joinWith sep rest

/-- Parse an unsigned decimal literal (`"12"`, `"12.5"`, `"12."`, `".5"`),
the forms of number that appear in CSV cells.  `float` accepts further
forms (exponents, `inf`); they are irrelevant to the claims. -/
def parseUnsignedFloat (cs : List Char) : Option Rat :=
  match cs.splitOn '.' with
  | [intPart] =>
    if intPart ≠ [] ∧ intPart.all Char.isDigit then some (digitsToNat intPart) else none
  | [intPart, fracPart] =>
    if (intPart ≠ [] ∨ fracPart ≠ []) ∧ intPart.all Char.isDigit ∧ fracPart.all Char.isDigit
    then some ((digitsToNat intPart : Rat) + (digitsToNat fracPart : Rat) / (10 : Rat) ^ fracPart.length)
    else none
  | _ => none

/-- Python `float(s)` on a string: optional sign around a decimal literal,
surrounding whitespace stripped. -/
def parseFloatString (s : String) : Option Rat :=
  match stripWs s.data with
  | '-' :: rest => (parseUnsignedFloat rest).map Neg.neg
  | '+' :: rest => parseUnsignedFloat rest
  | cs => parseUnsignedFloat cs

/-- Python `float(x)` on a cell: numbers pass through, `NaN` stays `nan`,
strings are parsed; an unparsable string raises `ValueError`. -/
def pyFloat : Cell → Except PyError PyFloat
  | .na => .ok .nan
  | .num q => .ok (.rat q)
  | .str s =>
    match parseFloatString s with
    | some q => .ok (.rat q)
    | none => .error (.valueError ("could not convert string to float: " ++ "'" ++ s ++ "'"))

/-- Model of `f < 0` on a Python float (`nan < 0` is `False`). -/
def PyFloat.lt0 : PyFloat → Bool
  | .rat q => q < 0
  | .nan => false

/-- Model of `f > 0` on a Python float (`nan > 0` is `False`). -/
def PyFloat.gt0 : PyFloat → Bool
  | .rat q => 0 < q
  | .nan => false

/-- Python `str.isnumeric()` restricted to ASCII content: nonempty and all
digits. -/
def pyIsNumeric (s : String) : Bool :=
  s ≠ "" && s.data.all Char.isDigit

/-- The idiom `int(x) if x.isnumeric() else x` used for every user-supplied
column reference. -/
def toLabel (s : String) : Label :=
  if pyIsNumeric s then .idx (digitsToNat s.data) else .name s

/-- A pandas `Series` row: ordered association list of labels to cells. -/
abbrev Row := List (Label × Cell)

/-- Model of `x in row`: membership of a label in the row's index. -/
def Row.hasLabel (r : Row) (l : Label) : Bool :=
  r.any (fun p => p.1 = l)

/-- Model of `row[col]` lookup by label. -/
def Row.get? (r : Row) (l : Label) : Option Cell :=
  (r.find? (fun p => p.1 = l)).map Prod.snd

/-- Model of `row[col] = value`: overwrite every entry with that label, or append a
new entry at the end when the label is absent (pandas `Series.__setitem__`). -/
def Row.set (r : Row) (l : Label) (c : Cell) : Row :=
  if r.hasLabel l then r.map (fun p => if p.1 = l then (l, c) else p)
  else r ++ [(l, c)]

/-- Model of `col_names_for_transform`: split the source on `;`, convert digit
strings to `int`, and fail unless every source label is in the row. -/
def col_names_for_transform (row : Row) (source : String) (dest : String) :
    Except PyError (Label × List Label) :=
  let dest_col := toLabel dest
  let source_cols := (pySplit source ';').map toLabel
  if source_cols.all (fun l => row.hasLabel l) then .ok (dest_col, source_cols)
  else .error (.runtimeError ("merge failed: " ++ source ++ " does not exist in CSV"))

/-- One iteration of `merge_row`'s loop body:
`if row[col] and not value: value = row[col]`. -/
def mergeStep (row : Row) (v : Cell) (col : Label) : Cell :=
  match row.get? col with
  | some c => if c.truthy && !v.truthy then c else v
  | none => v

/-- Model of `merge_row`: starting from `value = ""`, take each source column whose
cell is truthy while `value` is still falsy. -/
def merge_row (row : Row) (source : String) (dest : String) : Except PyError Row :=
  match col_names_for_transform row source dest with
  | .error e => .error e
  | .ok (dest_col, source_cols) =>
    .ok (row.set dest_col (source_cols.foldl (mergeStep row) (Cell.str "")))

/-- One iteration of `negative_values`' loop body:
`if row[col] and not value and float(row[col]) < 0: value = abs(float(row[col]))`;
`float` can raise `ValueError`. -/
def negStep (row : Row) (v : Cell) (col : Label) : Except PyError Cell :=
  match row.get? col with
  | some c =>
    if c.truthy && !v.truthy then do
      let f ← pyFloat c
      match f with
      | .rat q => if q < 0 then pure (Cell.num |q|) else pure v
      | .nan => pure v
    else pure v
  | none => pure v

/-- Model of `negative_values`: like `merge_row` but a truthy cell is taken only when
`float(cell) < 0`, and the absolute value of the float is stored. -/
def negative_values (row : Row) (source : String) (dest : String) : Except PyError Row :=
  match col_names_for_transform row source dest with
  | .error e => .error e
  | .ok (dest_col, source_cols) =>
    match source_cols.foldlM (negStep row) (Cell.str "") with
    | .error e => .error e
    | .ok value => .ok (row.set dest_col value)

/-- One iteration of `positive_values`' loop body:
`if row[col] and not value and float(row[col]) > 0: value = float(row[col])`. -/
def posStep (row : Row) (v : Cell) (col : Label) : Except PyError Cell :=
  match row.get? col with
  | some c =>
    if c.truthy && !v.truthy then do
      let f ← pyFloat c
      match f with
      | .rat q => if 0 < q then pure (Cell.num q) else pure v
      | .nan => pure v
    else pure v
  | none => pure v

/-- Model of `positive_values`: take the first truthy source whose float is `> 0`
and store the float itself. -/
def positive_values (row : Row) (source : String) (dest : String) : Except PyError Row :=
  match col_names_for_transform row source dest with
  | .error e => .error e
  | .ok (dest_col, source_cols) =>
    match source_cols.foldlM (posStep row) (Cell.str "") with
    | .error e => .error e
    | .ok value => .ok (row.set dest_col value)

/-- A pandas `DataFrame`: an ordered list of column labels and the rows'
cells, one list of cells per row (positionally matching `cols`). -/
structure Table where
  cols : List Label
  rows : List (List Cell)
deriving DecidableEq, Repr

/-- The rows of a table as label-indexed `Series`. -/
def Table.toRows (t : Table) : List Row :=
  t.rows.map (fun r => t.cols.zip r)

/-- Option-valued map over a list that stops at the first error
(`DataFrame.apply` raises out of the first failing row). -/
def mapExcept (f : α → Except ε β) : List α → Except ε (List β)
  | [] => .ok []
  | a :: as => do
    let b ← f a
    let bs ← mapExcept f as
    pure (b :: bs)

/-- Model of `DataFrame.apply(f, axis=1)`: apply a row function to every row and
reassemble; the resulting frame's columns come from the returned rows
(an empty frame is returned unchanged). -/
def Table.applyRowFn (t : Table) (f : Row → Except PyError Row) : Except PyError Table := do
  let rows' ← mapExcept f t.toRows
  match rows' with
  | [] => pure t
  | r :: _ => pure ⟨r.map Prod.fst, rows'.map (fun row => row.map Prod.snd)⟩

/-- Model of `merge_transform`. -/
def merge_transform (data : Table) (source : String) (dest : String) : Except PyError Table :=
  data.applyRowFn (fun row => merge_row row source dest)

/-- Model of `neg_transform`. -/
def neg_transform (data : Table) (source : String) (dest : String) : Except PyError Table :=
  data.applyRowFn (fun row => negative_values row source dest)

/-- Model of `pos_transform`. -/
def pos_transform (data : Table) (source : String) (dest : String) : Except PyError Table :=
  data.applyRowFn (fun row => positive_values row source dest)

/-- The three transform functions `parse_column_transforms` can dispatch to
(`merge_transform`, `pos_transform`, `neg_transform`), as a closed enum. -/
inductive TransformFunc
  | merge
  | pos
  | neg
deriving DecidableEq, Repr

/-- The `ColumnTransform` named tuple `(source, dest, func)`. -/
structure ColumnTransform where
  source : String
  dest : String
  func : TransformFunc
deriving DecidableEq, Repr

/-- Dispatch of `transform.func`. -/
def TransformFunc.apply : TransformFunc → Table → String → String → Except PyError Table
  | .merge => merge_transform
  | .pos => pos_transform
  | .neg => neg_transform

/-- Model of `transform_columns`: identity when the option is absent, otherwise the
rules applied in order. -/
def transform_columns (data : Table) (columns : Option (List ColumnTransform)) :
    Except PyError Table :=
  match columns with
  | none => .ok data
  | some ts => ts.foldlM (fun d t => t.func.apply d t.source t.dest) data

/-- First value for a key in an association list (a Python `dict` built by
`parse_column_renames` has unique keys). -/
def lookupLabel (m : List (Label × String)) (l : Label) : Option String :=
  (m.find? (fun p => p.1 = l)).map Prod.snd

/-- Model of `rename_columns`: identity when the mapper is absent, otherwise pandas
`DataFrame.rename(columns=mapper)`: each column label that is a key of the
mapper is replaced by its value; labels not in the mapper — including
mapper keys matching no column — are silently left alone. -/
def rename_columns (data : Table) (mapper : Option (List (Label × String))) : Table :=
  match mapper with
  | none => data
  | some m =>
    { data with
      cols := data.cols.map (fun l =>
        match lookupLabel m l with
        | some n => Label.name n
        | none => l) }

/-- Python `str(x)` on a column reference. -/
def Label.pyStr : Label → String
  | .idx n => toString n
  | .name s => s

/-- Model of `"', '".join(strs)`. -/
def joinQuoted : List String → String
  | [] => ""
  | [s] => s
  | s :: rest => s ++ "', '" ++ joinQuoted rest

/-- The message raised by `delete_columns` when resolution fails: it quotes
every requested reference, resolved or not. -/
def delete_error_msg (columns : List Label) : String :=
  "'" ++ joinQuoted (columns.map Label.pyStr) ++ "'" ++ ": cannot delete: column(s) not CSV file"

/-- Model of `index_to_name[x] if isinstance(x, int) else x` over the whole request
list: an `int` reference resolves through `dict(enumerate(data.columns))`
(a `KeyError` when out of range); other references pass through. -/
def delete_resolve (colList : List Label) : List Label → Option (List Label)
  | [] => some []
  | Label.idx n :: rest =>
    match colList[n]? with
    | none => none
    | some l =>
      match delete_resolve colList rest with
      | none => none
      | some r => some (l :: r)
  | l :: rest =>
    match delete_resolve colList rest with
    | none => none
    | some r => some (l :: r)

/-- Remove the columns whose label is among `targets` (pandas
`DataFrame.drop(columns=...)` after its sanity check). -/
def Table.dropCols (t : Table) (targets : List Label) : Table :=
  let keep := t.cols.map (fun l => decide (l ∉ targets))
  { cols := (keep.zip t.cols).filterMap (fun p => if p.1 then some p.2 else none)
    rows := t.rows.map (fun r =>
      (keep.zip r).filterMap (fun p => if p.1 then some p.2 else none)) }

/-- Model of `delete_columns`: identity when the option is absent; otherwise resolve
`int` references positionally, then `drop`; a `KeyError` from either step
is turned into one `RuntimeError` quoting all requested references. -/
def delete_columns (data : Table) (columns : Option (List Label)) : Except PyError Table :=
  match columns with
  | none => .ok data
  | some cols =>
    match delete_resolve data.cols cols with
    | none => .error (.runtimeError (delete_error_msg cols))
    | some targets =>
      if targets.all (fun l => data.cols.contains l) then .ok (data.dropCols targets)
      else .error (.runtimeError (delete_error_msg cols))

/-- State machine for `re.sub(r"\s+", " ", ·)`: the flag records whether
the previous character was whitespace, so each maximal whitespace run
emits exactly one space. -/
def collapseWsAux : Bool → List Char → List Char
  | _, [] => []
  | inWs, c :: rest =>
    if isPyWs c then
      if inWs then collapseWsAux true rest
      else ' ' :: collapseWsAux true rest
    else c :: collapseWsAux false rest

/-- Model of `re.sub(r"\s+", " ", ·)`: every maximal whitespace run becomes one space. -/
def collapseWs (cs : List Char) : List Char :=
  collapseWsAux false cs

/-- Model of `filter_whitespace`: strip then collapse whitespace of string cells,
other cells unchanged. -/
def filter_whitespace (x : Cell) : Cell :=
  match x with
  | .str s => .str ⟨collapseWs (stripWs s.data)⟩
  | c => c

/-- Model of `fillna("")` on one cell. -/
def fillnaCell (x : Cell) : Cell :=
  match x with
  | .na => .str ""
  | c => c

/-- Model of `reformat_data`: fill missing cells with `""`, optionally normalize
whitespace in every cell, optionally reverse the row order (the
re-indexing has no observable counterpart here). -/
def reformat_data (data : Table) (whitespace : Bool) (reverse : Bool) : Table :=
  let data := { data with rows := data.rows.map (fun r => r.map fillnaCell) }
  let data :=
    if whitespace then { data with rows := data.rows.map (fun r => r.map filter_whitespace) }
    else data
  if reverse then { data with rows := data.rows.reverse } else data

/-- Outcome of `pandas.read_csv` on one file: a table or a `ParserError`
message; absent files are diagnosed separately. -/
inductive CsvReadResult
  | ok (t : Table)
  | parseError (msg : String)
deriving DecidableEq, Repr

/-- The external CSV reader: for a file name and the `dayfirst`, `header`
and `parse_dates` options, either `none` (no such file) or the library's
parse outcome. -/
abbrev FileSystem := String → Bool → Bool → Option (List Label) → Option CsvReadResult

/-- Model of `read_csv_file`: delegate to the library, turning `FileNotFoundError`
and `ParserError` into `RuntimeError` with the file name in the message. -/
def read_csv_file (fs : FileSystem) (filename : String) (day_first : Bool)
    (no_header : Bool) (date_columns : Option (List Label)) : Except PyError Table :=
  match fs filename day_first no_header date_columns with
  | none => .error (.runtimeError (filename ++ ": file not found"))
  | some (.parseError m) => .error (.runtimeError (filename ++ ": " ++ m))
  | some (.ok t) => .ok t

/-- The parsed command line as `main` consumes it. -/
structure Args where
  version : Bool
  whitespace : Bool
  reverse : Bool
  no_header : Bool
  day_first : Bool
  date : Option (List Label)
  rename : Option (List (Label × String))
  transform : Option (List ColumnTransform)
  delete : Option (List Label)
  output : Option (List String)
  csvfile : List String

/-- Model of `Path(x).with_suffix(".numbers")`, modelled for plain file names:
replace the extension after the last dot, or append one. -/
def with_numbers_suffix (s : String) : String :=
  match pySplit s '.' with
  | [_] => s ++ ".numbers"
  | parts => joinWith "." parts.dropLast ++ ".numbers"

/-- How one run of `main` terminates, as observable by the user. -/
inductive Surface
  | versionExit0
  | helpExit1
  | mismatchExit1 (msg : String)
  | okExit0
  | runtimeExit1 (msg : String)
  | uncaughtTraceback (e : PyError)
deriving DecidableEq, Repr

/-- The process exit code of each outcome (`-V` and success exit 0;
`exit(1)` paths and an uncaught Python exception exit 1). -/
def Surface.exitCode : Surface → Nat
  | .versionExit0 => 0
  | .helpExit1 => 1
  | .mismatchExit1 _ => 1
  | .okExit0 => 0
  | .runtimeExit1 _ => 1
  | .uncaughtTraceback _ => 1

/-- Whether the outcome writes a single-line message to stderr: true for
the count-mismatch `print` and the caught `RuntimeError`; the help text
goes to stdout and an uncaught exception prints a traceback. -/
def Surface.singleLineStderr : Surface → Bool
  | .mismatchExit1 _ => true
  | .runtimeExit1 _ => true
  | _ => false

/-- The per-file pipeline body of `main`'s loop: load, reformat,
transform, rename, delete. -/
def convert_one (fs : FileSystem) (args : Args) (csv_filename : String) :
    Except PyError Table :=
  match read_csv_file fs csv_filename args.day_first args.no_header args.date with
  | .error e => .error e
  | .ok data =>
    let data := reformat_data data args.whitespace args.reverse
    match transform_columns data args.transform with
    | .error e => .error e
    | .ok data =>
      let data := rename_columns data args.rename
      match delete_columns data args.delete with
      | .error e => .error e
      | .ok data => .ok data

/-- Model of `main`'s `for` loop under its `try`: convert each (input, output) pair,
recording each output written; a `RuntimeError` is caught and printed
(exit 1), any other exception escapes as a traceback. -/
def main_loop (fs : FileSystem) (args : Args) :
    List (String × String) → List String → Surface × List String
  | [], written => (.okExit0, written)
  | (c, o) :: rest, written =>
    match convert_one fs args c with
    | .ok _ => main_loop fs args rest (written ++ [o])
    | .error (.runtimeError m) => (.runtimeExit1 m, written)
    | .error e => (.uncaughtTraceback e, written)

/-- The output file list: `--output` verbatim when given, else each input
with its extension replaced. -/
def output_filenames (args : Args) : List String :=
  match args.output with
  | none => args.csvfile.map with_numbers_suffix
  | some o => o

/-- Model of `main`: version short-circuit, help on no inputs, input/output count
check, then the conversion loop.  Returns the terminal outcome and the
list of output files written. -/
def mainModel (fs : FileSystem) (args : Args) : Surface × List String :=
  if args.version then (.versionExit0, [])
  else if args.csvfile.length = 0 then (.helpExit1, [])
  else if args.csvfile.length ≠ (output_filenames args).length then
    (.mismatchExit1 "The numbers of input and output file names do not match", [])
  else main_loop fs args (args.csvfile.zip (output_filenames args)) []

/-- The error of the first input file whose conversion fails, if any. -/
def first_conversion_error (fs : FileSystem) (args : Args) : List String → Option PyError
  | [] => none
  | c :: rest =>
    match convert_one fs args c with
    | .ok _ => first_conversion_error fs args rest
    | .error e => some e

/-! ## Specification-side definitions

Functions written from the words of the claims, to be compared with the
code-derived functions above. -/

/-- The value `merge_row` actually selects: the first source cell that is
truthy in Python's sense, else the empty string. -/
def firstTruthyValue (row : Row) : List Label → Cell
  | [] => .str ""
  | l :: rest =>
    match row.get? l with
    | some c => if c.truthy then c else firstTruthyValue row rest
    | none => firstTruthyValue row rest

/-- Written from claim C1's words: the first source value that is
non-empty/non-null, else the empty string. -/
def firstNonEmptyValue (row : Row) : List Label → Cell
  | [] => .str ""
  | l :: rest =>
    match row.get? l with
    | some c => if c = .str "" ∨ c = .na then firstNonEmptyValue row rest else c
    | none => firstNonEmptyValue row rest

/-- A cell that is a number or the empty string (claim C2's hypothesis on
the source cells). -/
def Cell.isNumericOrEmpty : Cell → Bool
  | .num _ => true
  | .str s => s = ""
  | .na => false

/-- Written from claim C2's words: the first source value that is a number
strictly greater than zero, else the empty string. -/
def posSelectValue (row : Row) : List Label → Cell
  | [] => .str ""
  | l :: rest =>
    match row.get? l with
    | some (.num q) => if 0 < q then .num q else posSelectValue row rest
    | _ => posSelectValue row rest

/-- Written from claim C2's words: the absolute value of the first source
value that is a number strictly less than zero, else the empty string. -/
def negSelectValue (row : Row) : List Label → Cell
  | [] => .str ""
  | l :: rest =>
    match row.get? l with
    | some (.num q) => if q < 0 then .num |q| else negSelectValue row rest
    | _ => negSelectValue row rest

/-- Written from claim C9's words: a rename whose digit reference is read
as a zero-based position, renaming the column at that position. -/
def rename_columns_positional (data : Table) (mapper : List (Label × String)) : Table :=
  { data with
    cols := data.cols.enum.map (fun p =>
      match mapper.find? (fun q =>
          match q.1 with
          | .idx n => n == p.1
          | .name s => Label.name s == p.2) with
      | some q => Label.name q.2
      | none => p.2) }

/-- Whether a single reference resolves against a column list: an `int`
must be in positional range, a name must be a current label. -/
def resolvesIn (colList : List Label) : Label → Bool
  | .idx n => n < colList.length
  | .name s => colList.contains (.name s)

/-! ## Whitespace normal forms

Boolean predicates describing the shape of `filter_whitespace` output,
used to prove idempotence. -/

/-- Head is absent or not whitespace. -/
def headNonWs (l : List Char) : Bool :=
  match l.head? with
  | some c => !isPyWs c
  | none => true

/-- Last character is absent or not whitespace. -/
def lastNonWs (l : List Char) : Bool :=
  match l.getLast? with
  | some c => !isPyWs c
  | none => true

/-- Every whitespace character is a plain space. -/
def allWsSpace (l : List Char) : Bool :=
  l.all (fun c => !isPyWs c || c = ' ')

/-- No two adjacent whitespace characters. -/
def noWsPair : List Char → Bool
  | [] => true
  | c :: rest =>
    (match rest.head? with
     | some d => !(isPyWs c && isPyWs d)
     | none => true) && noWsPair rest

/-! ## Concrete fixtures for counterexamples and witnesses -/

/-- A row whose first source holds the number `0`: non-empty and non-null,
but falsy in Python. -/
def rowC1 : Row := [(.name "A", .num 0), (.name "B", .str "5")]

/-- An empty file system: every read gives `FileNotFoundError`. -/
def fsEmpty : FileSystem := fun _ _ _ _ => none

/-- A file system holding exactly one CSV file that parses to `t`. -/
def fsWith (filename : String) (t : Table) : FileSystem :=
  fun n _ _ _ => if n = filename then some (.ok t) else none

/-- Command line with all options off and no files. -/
def argsBase : Args :=
  { version := false, whitespace := false, reverse := false, no_header := false,
    day_first := false, date := none, rename := none, transform := none,
    delete := none, output := none, csvfile := [] }

/-- A one-column, one-row table used by several scenarios. -/
def table1 : Table := ⟨[.name "A"], [[.num 1]]⟩

/-- File system for the claim C3 scenario: one CSV file. -/
def fsC3 : FileSystem := fsWith "in.csv" table1

/-- Arguments for the claim C3 scenario: rename a column that does not
exist. -/
def argsC3 : Args :=
  { argsBase with rename := some [(.name "B", "C")], csvfile := ["in.csv"] }

/-- A two-column table with string-named columns, for claim C9. -/
def tableC9 : Table := ⟨[.name "A", .name "B"], [[.num 1, .num 2]]⟩

/-- A table whose only cell is a non-numeric string, for claim C5. -/
def tableC5 : Table := ⟨[.name "A"], [[.str "abc"]]⟩

/-- File system for the claim C5 scenario. -/
def fsC5 : FileSystem := fsWith "bad.csv" tableC5

/-- Arguments for the claim C5 scenario: a `POS` transform over the
non-numeric column. -/
def argsC5 : Args :=
  { argsBase with transform := some [⟨"A", "P", .pos⟩], csvfile := ["bad.csv"] }

/-- Arguments for a successful conversion with no options. -/
def argsW5ok : Args := { argsBase with csvfile := ["ok.csv"] }

/-- Arguments naming a file that does not exist. -/
def argsW5miss : Args := { argsBase with csvfile := ["missing.csv"] }

/-- Arguments for claim C7's counterexample: `--version` together with one
`--output` path and no inputs. -/
def argsC7 : Args := { argsBase with version := true, output := some ["a.numbers"] }

/-- Arguments with two inputs but one output path. -/
def argsW7 : Args :=
  { argsBase with csvfile := ["a.csv", "b.csv"], output := some ["o.numbers"] }

/-! ## Fold lemmas for the row transforms -/

theorem str_empty_not_truthy : (Cell.str "").truthy = false := rfl

theorem mergeStep_of_truthy (row : Row) (v : Cell) (col : Label) (hv : v.truthy = true) :
    mergeStep row v col = v := by
  unfold mergeStep
  cases row.get? col with
  | none => rfl
  | some c => simp [hv]

theorem foldl_mergeStep_of_truthy (row : Row) (v : Cell) (hv : v.truthy = true) :
    ∀ ls : List Label, ls.foldl (mergeStep row) v = v
  | [] => rfl
  | l :: rest => by
    rw [List.foldl_cons, mergeStep_of_truthy row v l hv,
      foldl_mergeStep_of_truthy row v hv rest]

theorem foldl_mergeStep_empty (row : Row) :
    ∀ ls : List Label, ls.foldl (mergeStep row) (Cell.str "") = firstTruthyValue row ls
  | [] => rfl
  | l :: rest => by
    rw [List.foldl_cons]
    cases h : row.get? l with
    | none =>
      have hstep : mergeStep row (Cell.str "") l = Cell.str "" := by
        unfold mergeStep; rw [h]
      rw [hstep, foldl_mergeStep_empty row rest]
      simp [firstTruthyValue, h]
    | some c =>
      cases hc : c.truthy with
      | true =>
        have hstep : mergeStep row (Cell.str "") l = c := by
          unfold mergeStep; rw [h]; simp [hc, str_empty_not_truthy]
        rw [hstep, foldl_mergeStep_of_truthy row c hc rest]
        simp [firstTruthyValue, h, hc]
      | false =>
        have hstep : mergeStep row (Cell.str "") l = Cell.str "" := by
          unfold mergeStep; rw [h]; simp [hc]
        rw [hstep, foldl_mergeStep_empty row rest]
        simp [firstTruthyValue, h, hc]

theorem col_names_ok (row : Row) (source dest : String)
    (h : ((pySplit source ';').map toLabel).all (fun l => row.hasLabel l) = true) :
    col_names_for_transform row source dest =
      .ok (toLabel dest, (pySplit source ';').map toLabel) := by
  unfold col_names_for_transform
  simp [h]

theorem posStep_of_truthy (row : Row) (v : Cell) (col : Label) (hv : v.truthy = true) :
    posStep row v col = pure v := by
  unfold posStep
  cases row.get? col with
  | none => rfl
  | some c => simp [hv]

theorem foldlM_posStep_of_truthy (row : Row) (v : Cell) (hv : v.truthy = true) :
    ∀ ls : List Label, ls.foldlM (posStep row) v = pure v
  | [] => rfl
  | l :: rest => by
    rw [List.foldlM_cons, posStep_of_truthy row v l hv, pure_bind,
      foldlM_posStep_of_truthy row v hv rest]

theorem negStep_of_truthy (row : Row) (v : Cell) (col : Label) (hv : v.truthy = true) :
    negStep row v col = pure v := by
  unfold negStep
  cases row.get? col with
  | none => rfl
  | some c => simp [hv]

theorem foldlM_negStep_of_truthy (row : Row) (v : Cell) (hv : v.truthy = true) :
    ∀ ls : List Label, ls.foldlM (negStep row) v = pure v
  | [] => rfl
  | l :: rest => by
    rw [List.foldlM_cons, negStep_of_truthy row v l hv, pure_bind,
      foldlM_negStep_of_truthy row v hv rest]

theorem num_truthy (q : Rat) (hq : q ≠ 0) : (Cell.num q).truthy = true := by
  simp [Cell.truthy, hq]

theorem except_ok_bind {e α β : Type} (a : α) (k : α → Except e β) :
    (Except.ok a >>= k : Except e β) = k a := rfl

theorem foldlM_posStep_numeric (row : Row) :
    ∀ ls : List Label,
      ls.all (fun l => (row.get? l).all Cell.isNumericOrEmpty) = true →
      ls.foldlM (posStep row) (Cell.str "") = pure (posSelectValue row ls)
  | [], _ => rfl
  | l :: rest, hnum => by
    rw [List.all_cons, Bool.and_eq_true] at hnum
    obtain ⟨h1, h2⟩ := hnum
    rw [List.foldlM_cons]
    cases h : row.get? l with
    | none =>
      have hstep : posStep row (Cell.str "") l = pure (Cell.str "") := by
        unfold posStep; rw [h]
      have hsel : posSelectValue row (l :: rest) = posSelectValue row rest := by
        simp only [posSelectValue]; rw [h]
      rw [hstep, pure_bind, hsel]
      exact foldlM_posStep_numeric row rest h2
    | some c =>
      rw [h] at h1
      simp only [Option.all_some] at h1
      cases c with
      | na => simp [Cell.isNumericOrEmpty] at h1
      | str s =>
        have hs : s = "" := by simpa [Cell.isNumericOrEmpty] using h1
        subst hs
        have hstep : posStep row (Cell.str "") l = pure (Cell.str "") := by
          unfold posStep; rw [h]; simp [str_empty_not_truthy]
        have hsel : posSelectValue row (l :: rest) = posSelectValue row rest := by
          simp only [posSelectValue]; rw [h]
        rw [hstep, pure_bind, hsel]
        exact foldlM_posStep_numeric row rest h2
      | num q =>
        by_cases hq : q = 0
        · subst hq
          have hstep : posStep row (Cell.str "") l = pure (Cell.str "") := by
            unfold posStep; rw [h]; simp [Cell.truthy]
          have hsel : posSelectValue row (l :: rest) = posSelectValue row rest := by
            simp only [posSelectValue]; rw [h]
            exact if_neg (lt_irrefl (0 : Rat))
          rw [hstep, pure_bind, hsel]
          exact foldlM_posStep_numeric row rest h2
        · by_cases hq0 : 0 < q
          · have hstep : posStep row (Cell.str "") l = pure (Cell.num q) := by
              unfold posStep; rw [h]
              simp [num_truthy q hq, str_empty_not_truthy, pyFloat, except_ok_bind, hq0]
            have hsel : posSelectValue row (l :: rest) = Cell.num q := by
              simp only [posSelectValue]; rw [h]
              exact if_pos hq0
            rw [hstep, pure_bind, hsel]
            exact foldlM_posStep_of_truthy row (Cell.num q) (num_truthy q hq) rest
          · have hstep : posStep row (Cell.str "") l = pure (Cell.str "") := by
              unfold posStep; rw [h]
              simp [num_truthy q hq, str_empty_not_truthy, pyFloat, except_ok_bind, hq0]
            have hsel : posSelectValue row (l :: rest) = posSelectValue row rest := by
              simp only [posSelectValue]; rw [h]
              exact if_neg hq0
            rw [hstep, pure_bind, hsel]
            exact foldlM_posStep_numeric row rest h2

theorem foldlM_negStep_numeric (row : Row) :
    ∀ ls : List Label,
      ls.all (fun l => (row.get? l).all Cell.isNumericOrEmpty) = true →
      ls.foldlM (negStep row) (Cell.str "") = pure (negSelectValue row ls)
  | [], _ => rfl
  | l :: rest, hnum => by
    rw [List.all_cons, Bool.and_eq_true] at hnum
    obtain ⟨h1, h2⟩ := hnum
    rw [List.foldlM_cons]
    cases h : row.get? l with
    | none =>
      have hstep : negStep row (Cell.str "") l = pure (Cell.str "") := by
        unfold negStep; rw [h]
      have hsel : negSelectValue row (l :: rest) = negSelectValue row rest := by
        simp only [negSelectValue]; rw [h]
      rw [hstep, pure_bind, hsel]
      exact foldlM_negStep_numeric row rest h2
    | some c =>
      rw [h] at h1
      simp only [Option.all_some] at h1
      cases c with
      | na => simp [Cell.isNumericOrEmpty] at h1
      | str s =>
        have hs : s = "" := by simpa [Cell.isNumericOrEmpty] using h1
        subst hs
        have hstep : negStep row (Cell.str "") l = pure (Cell.str "") := by
          unfold negStep; rw [h]; simp [str_empty_not_truthy]
        have hsel : negSelectValue row (l :: rest) = negSelectValue row rest := by
          simp only [negSelectValue]; rw [h]
        rw [hstep, pure_bind, hsel]
        exact foldlM_negStep_numeric row rest h2
      | num q =>
        by_cases hq : q = 0
        · subst hq
          have hstep : negStep row (Cell.str "") l = pure (Cell.str "") := by
            unfold negStep; rw [h]; simp [Cell.truthy]
          have hsel : negSelectValue row (l :: rest) = negSelectValue row rest := by
            simp only [negSelectValue]; rw [h]
            exact if_neg (lt_irrefl (0 : Rat))
          rw [hstep, pure_bind, hsel]
          exact foldlM_negStep_numeric row rest h2
        · by_cases hq0 : q < 0
          · have hstep : negStep row (Cell.str "") l = pure (Cell.num |q|) := by
              unfold negStep; rw [h]
              simp [num_truthy q hq, str_empty_not_truthy, pyFloat, except_ok_bind, hq0]
            have hsel : negSelectValue row (l :: rest) = Cell.num |q| := by
              simp only [negSelectValue]; rw [h]
              exact if_pos hq0
            have habs : |q| ≠ 0 := by positivity
            rw [hstep, pure_bind, hsel]
            exact foldlM_negStep_of_truthy row (Cell.num |q|) (num_truthy _ habs) rest
          · have hstep : negStep row (Cell.str "") l = pure (Cell.str "") := by
              unfold negStep; rw [h]
              simp [num_truthy q hq, str_empty_not_truthy, pyFloat, except_ok_bind, hq0]
            have hsel : negSelectValue row (l :: rest) = negSelectValue row rest := by
              simp only [negSelectValue]; rw [h]
              exact if_neg hq0
            rw [hstep, pure_bind, hsel]
            exact foldlM_negStep_numeric row rest h2

theorem pure_eq_ok {e α : Type} (a : α) : (pure a : Except e α) = .ok a := rfl

/-! ## Claim C1 -/

/-- Claim C1 counterexample: on a row with sources `A = 0` (a number,
non-empty and non-null) and `B = "5"`, the MERGE transform stores `"5"`,
not the first non-empty/non-null source value `0` — Python truthiness
skips the numeric zero. -/
theorem merge_zero_not_first_nonempty :
    merge_row rowC1 "A;B" "T" =
      .ok [(.name "A", .num 0), (.name "B", .str "5"), (.name "T", .str "5")] ∧
    firstNonEmptyValue rowC1 [.name "A", .name "B"] = .num 0 ∧
    (Cell.str "5" : Cell) ≠ .num 0 :=
  ⟨rfl, rfl, by decide⟩

/-- Claim C1 (amended): for every row and every source list that fully
resolves, `merge_row` sets the destination cell to the first source value
that is truthy in Python's sense (non-empty string, non-zero number, or
`NaN`) — a numeric `0` is treated as empty and skipped — and to the empty
string when no source is truthy. -/
theorem merge_row_selects_first_truthy (row : Row) (source dest : String)
    (h : ((pySplit source ';').map toLabel).all (fun l => row.hasLabel l) = true) :
    merge_row row source dest =
      .ok (row.set (toLabel dest)
        (firstTruthyValue row ((pySplit source ';').map toLabel))) := by
  simp only [merge_row, col_names_ok row source dest h, foldl_mergeStep_empty]

/-- Witness for the amended claim C1 at a concrete row. -/
theorem merge_row_selects_first_truthy_witness :
    (((pySplit "A;B" ';').map toLabel).all
        (fun l => Row.hasLabel [(.name "A", Cell.str ""), (.name "B", Cell.str "5")] l)
      = true) ∧
    merge_row [(.name "A", Cell.str ""), (.name "B", Cell.str "5")] "A;B" "T" =
      .ok (Row.set [(.name "A", Cell.str ""), (.name "B", Cell.str "5")] (toLabel "T")
        (firstTruthyValue [(.name "A", Cell.str ""), (.name "B", Cell.str "5")]
          ((pySplit "A;B" ';').map toLabel))) :=
  ⟨rfl, merge_row_selects_first_truthy [(.name "A", Cell.str ""), (.name "B", Cell.str "5")]
    "A;B" "T" rfl⟩

/-! ## Claim C2 -/

/-- Claim C2: for every row whose resolving source cells are all numeric
or empty, `positive_values` stores the first strictly-positive numeric
source value (else the empty string) and `negative_values` stores the
absolute value of the first strictly-negative numeric source value (else
the empty string). -/
theorem pos_neg_values_first_signed (row : Row) (source dest : String)
    (hres : ((pySplit source ';').map toLabel).all (fun l => row.hasLabel l) = true)
    (hnum : ((pySplit source ';').map toLabel).all
        (fun l => (row.get? l).all Cell.isNumericOrEmpty) = true) :
    positive_values row source dest =
      .ok (row.set (toLabel dest)
        (posSelectValue row ((pySplit source ';').map toLabel))) ∧
    negative_values row source dest =
      .ok (row.set (toLabel dest)
        (negSelectValue row ((pySplit source ';').map toLabel))) := by
  constructor
  · simp only [positive_values, col_names_ok row source dest hres,
      foldlM_posStep_numeric row _ hnum, pure_eq_ok]
  · simp only [negative_values, col_names_ok row source dest hres,
      foldlM_negStep_numeric row _ hnum, pure_eq_ok]

/-- Witness for claim C2 at a concrete row with one negative and one
positive amount. -/
theorem pos_neg_values_first_signed_witness :
    (((pySplit "Amount;B" ';').map toLabel).all
        (fun l => Row.hasLabel [(.name "Amount", Cell.num (-5)), (.name "B", Cell.num 3)] l)
      = true) ∧
    (((pySplit "Amount;B" ';').map toLabel).all
        (fun l => (Row.get? [(.name "Amount", Cell.num (-5)), (.name "B", Cell.num 3)] l).all
          Cell.isNumericOrEmpty) = true) ∧
    positive_values [(.name "Amount", Cell.num (-5)), (.name "B", Cell.num 3)] "Amount;B" "Out" =
      .ok (Row.set [(.name "Amount", Cell.num (-5)), (.name "B", Cell.num 3)] (toLabel "Out")
        (posSelectValue [(.name "Amount", Cell.num (-5)), (.name "B", Cell.num 3)]
          ((pySplit "Amount;B" ';').map toLabel))) ∧
    negative_values [(.name "Amount", Cell.num (-5)), (.name "B", Cell.num 3)] "Amount;B" "Out" =
      .ok (Row.set [(.name "Amount", Cell.num (-5)), (.name "B", Cell.num 3)] (toLabel "Out")
        (negSelectValue [(.name "Amount", Cell.num (-5)), (.name "B", Cell.num 3)]
          ((pySplit "Amount;B" ';').map toLabel))) :=
  ⟨rfl, rfl,
    (pos_neg_values_first_signed [(.name "Amount", Cell.num (-5)), (.name "B", Cell.num 3)]
      "Amount;B" "Out" rfl rfl).1,
    (pos_neg_values_first_signed [(.name "Amount", Cell.num (-5)), (.name "B", Cell.num 3)]
      "Amount;B" "Out" rfl rfl).2⟩

/-! ## Claim C10 -/

/-- Claim C10: the transform, rename and delete stages each return the
table unchanged when their option is absent (`None`). -/
theorem stages_identity_on_none (t : Table) :
    transform_columns t none = .ok t ∧ rename_columns t none = t ∧
      delete_columns t none = .ok t :=
  ⟨rfl, rfl, rfl⟩

/-! ## Rename and delete lemmas -/

theorem lookupLabel_eq_none (m : List (Label × String)) (l : Label)
    (h : ∀ p ∈ m, p.1 ≠ l) : lookupLabel m l = none := by
  have hfind : m.find? (fun p => p.1 = l) = none :=
    List.find?_eq_none.mpr (fun p hp => by simp [h p hp])
  simp [lookupLabel, hfind]

theorem rename_columns_unresolved (t : Table) (m : List (Label × String))
    (h : ∀ p ∈ m, p.1 ∉ t.cols) :
    rename_columns t (some m) = t := by
  have hpt : ∀ l ∈ t.cols,
      (match lookupLabel m l with
       | some n => Label.name n
       | none => l) = id l := by
    intro l hl
    rw [lookupLabel_eq_none m l (fun p hp he => h p hp (he ▸ hl))]
    rfl
  show ({ t with cols := t.cols.map _ } : Table) = t
  rw [List.map_congr_left hpt, List.map_id]

theorem delete_resolve_unresolved (colList : List Label) (r : Label)
    (hr : resolvesIn colList r = false) :
    ∀ cols : List Label, r ∈ cols →
      delete_resolve colList cols = none ∨
      ∃ ts, delete_resolve colList cols = some ts ∧
        ts.all (fun l => colList.contains l) = false := by
  intro cols
  induction cols with
  | nil => intro h; exact absurd h (List.not_mem_nil r)
  | cons c rest ih =>
    intro hmem
    rcases List.mem_cons.mp hmem with hc | hrest
    · subst hc
      cases r with
      | idx n =>
        have hlt : ¬ n < colList.length := by simpa [resolvesIn] using hr
        have hg : colList[n]? = none := by
          rw [List.getElem?_eq_none_iff]
          exact Nat.le_of_not_lt hlt
        left
        simp only [delete_resolve, hg]
      | name s =>
        cases hrec : delete_resolve colList rest with
        | none => left; simp only [delete_resolve, hrec]
        | some ts =>
          right
          refine ⟨Label.name s :: ts, by simp only [delete_resolve, hrec], ?_⟩
          have hcont : colList.contains (Label.name s) = false := by
            simpa [resolvesIn] using hr
          simp only [List.all_cons, hcont, Bool.false_and]
    · rcases ih hrest with hnone | ⟨ts, hts, hall⟩
      · cases c with
        | idx n =>
          cases hg : colList[n]? with
          | none => left; simp only [delete_resolve, hg]
          | some l => left; simp only [delete_resolve, hg, hnone]
        | name s => left; simp only [delete_resolve, hnone]
      · cases c with
        | idx n =>
          cases hg : colList[n]? with
          | none => left; simp only [delete_resolve, hg]
          | some l =>
            right
            refine ⟨l :: ts, by simp only [delete_resolve, hg, hts], ?_⟩
            simp only [List.all_cons, hall, Bool.and_false]
        | name s =>
          right
          refine ⟨Label.name s :: ts, by simp only [delete_resolve, hts], ?_⟩
          simp only [List.all_cons, hall, Bool.and_false]

theorem delete_columns_unresolved_error (t : Table) (cols : List Label) (r : Label)
    (hmem : r ∈ cols) (hr : resolvesIn t.cols r = false) :
    delete_columns t (some cols) = .error (.runtimeError (delete_error_msg cols)) := by
  unfold delete_columns
  rcases delete_resolve_unresolved t.cols r hr cols hmem with hnone | ⟨ts, hts, hall⟩
  · simp only [hnone]
  · simp only [hts, hall]
    rfl

theorem reformat_cols (t : Table) (w rev : Bool) :
    (reformat_data t w rev).cols = t.cols := by
  unfold reformat_data
  cases w <;> cases rev <;> rfl

/-! ## Claim C3 -/

/-- Claim C3 counterexample: renaming the nonexistent column `B` to `C` on
a table with single column `A` does not fail: the rename returns the table
unchanged and the whole pipeline succeeds with exit code 0. -/
theorem rename_unresolved_does_not_fail :
    Label.name "B" ∉ table1.cols ∧
    rename_columns table1 (some [(.name "B", "C")]) = table1 ∧
    mainModel fsC3 argsC3 = (.okExit0, ["in.numbers"]) ∧
    Surface.exitCode .okExit0 = 0 :=
  ⟨by decide, rfl, rfl, rfl⟩

/-- Claim C3 (amended): an old-side rename reference that resolves to no
column is silently ignored, not fatal: when no mapper key occurs among the
table's columns, `rename_columns` returns the table completely unchanged
and the pipeline proceeds. -/
theorem rename_columns_ignores_unresolved (t : Table) (m : List (Label × String))
    (h : ∀ p ∈ m, p.1 ∉ t.cols) :
    rename_columns t (some m) = t :=
  rename_columns_unresolved t m h

/-- Witness for the amended claim C3. -/
theorem rename_columns_ignores_unresolved_witness :
    (∀ p ∈ [((Label.name "B" : Label), "C")], p.1 ∉ table1.cols) ∧
    rename_columns table1 (some [(.name "B", "C")]) = table1 :=
  ⟨by decide, rename_columns_ignores_unresolved table1 [(.name "B", "C")] (by decide)⟩

/-! ## Claim C4 -/

/-- Claim C4 counterexample: deleting `Date,XX` from a table that has
column `Date` but no `XX` raises a message quoting both references — the
resolved `Date` included — so the message does not list exactly the
references that failed to resolve. -/
theorem delete_error_quotes_resolved_refs :
    Label.name "Date" ∈ (Table.mk [.name "Date", .name "Amount"] [[.num 1, .num 2]]).cols ∧
    delete_columns (Table.mk [.name "Date", .name "Amount"] [[.num 1, .num 2]])
        (some [.name "Date", .name "XX"]) =
      .error (.runtimeError "'Date', 'XX': cannot delete: column(s) not CSV file") :=
  ⟨by decide, rfl⟩

/-- Claim C4 (amended): when one or more delete references fail to resolve
the deleter fails with a single combined message — but the message quotes
every reference supplied to `--delete`, the resolving ones included, not
only those that failed; the single bad reference `XX` alone produces
exactly `'XX': cannot delete: column(s) not CSV file` and, through `main`,
exit code 1. -/
theorem delete_failure_quotes_all_refs :
    (∀ (t : Table) (cols : List Label) (r : Label), r ∈ cols →
      resolvesIn t.cols r = false →
      delete_columns t (some cols) = .error (.runtimeError (delete_error_msg cols))) ∧
    (∀ (fs : FileSystem) (args : Args) (c : String) (t : Table),
      args.version = false → args.csvfile = [c] → args.output = none →
      fs c args.day_first args.no_header args.date = some (.ok t) →
      args.transform = none → args.rename = none →
      args.delete = some [.name "XX"] → Label.name "XX" ∉ t.cols →
      mainModel fs args =
        (.runtimeExit1 "'XX': cannot delete: column(s) not CSV file", []) ∧
      Surface.exitCode (mainModel fs args).1 = 1) := by
  constructor
  · intro t cols r hmem hr
    exact delete_columns_unresolved_error t cols r hmem hr
  · intro fs args c t hv hcsv hout hfs htr hrn hdel hxx
    have h1 : read_csv_file fs c args.day_first args.no_header args.date = .ok t := by
      unfold read_csv_file; rw [hfs]
    have hres : resolvesIn (reformat_data t args.whitespace args.reverse).cols
        (Label.name "XX") = false := by
      have hcont : (reformat_data t args.whitespace args.reverse).cols.contains
          (Label.name "XX") = false := by
        rw [reformat_cols]
        exact Bool.eq_false_iff.mpr (fun hc => hxx (List.elem_iff.mp hc))
      simpa [resolvesIn] using hcont
    have hdelErr := delete_columns_unresolved_error
      (reformat_data t args.whitespace args.reverse) [Label.name "XX"]
      (Label.name "XX") (List.mem_cons_self _ _) hres
    have hcv : convert_one fs args c =
        .error (.runtimeError "'XX': cannot delete: column(s) not CSV file") := by
      simp only [convert_one, h1, htr, hrn, hdel, transform_columns, rename_columns, hdelErr]
      rfl
    have hmain : mainModel fs args =
        (.runtimeExit1 "'XX': cannot delete: column(s) not CSV file", []) := by
      simp only [mainModel, hv, hcsv, hout, output_filenames, List.map_cons, List.map_nil,
        List.length_cons, List.length_nil, List.zip_cons_cons, List.zip_nil_right,
        main_loop, hcv]
      simp
    exact ⟨hmain, by rw [hmain]; rfl⟩

/-- Witness for the amended claim C4: both parts at concrete inputs. -/
theorem delete_failure_quotes_all_refs_witness :
    delete_columns table1 (some [.name "A", .name "XX"]) =
      .error (.runtimeError (delete_error_msg [.name "A", .name "XX"])) ∧
    mainModel (fsWith "t.csv" table1)
        { argsBase with csvfile := ["t.csv"], delete := some [.name "XX"] } =
      (.runtimeExit1 "'XX': cannot delete: column(s) not CSV file", []) :=
  ⟨(delete_failure_quotes_all_refs).1 table1 [.name "A", .name "XX"] (.name "XX")
      (by decide) (by decide),
    ((delete_failure_quotes_all_refs).2 (fsWith "t.csv" table1)
      { argsBase with csvfile := ["t.csv"], delete := some [.name "XX"] }
      "t.csv" table1 rfl rfl rfl rfl rfl rfl rfl (by decide)).1⟩

/-! ## Claim C6 -/

/-- Claim C6: renames are applied before deletions: after renaming `OLD`
to `NEW` (distinct names), deleting by the old name fails with the
column-not-found error while deleting by the new name succeeds. -/
theorem rename_applies_before_delete (t : Table) (OLD NEW : String)
    (hmem : Label.name OLD ∈ t.cols) (hne : OLD ≠ NEW) :
    delete_columns (rename_columns t (some [(.name OLD, NEW)])) (some [.name OLD]) =
      .error (.runtimeError (delete_error_msg [.name OLD])) ∧
    ∃ t2, delete_columns (rename_columns t (some [(.name OLD, NEW)]))
        (some [.name NEW]) = .ok t2 := by
  have hcols : (rename_columns t (some [(.name OLD, NEW)])).cols =
      t.cols.map (fun l => if l = Label.name OLD then Label.name NEW else l) := by
    show t.cols.map _ = _
    apply List.map_congr_left
    intro l _
    by_cases hl : l = Label.name OLD
    · subst hl
      simp [lookupLabel, List.find?]
    · have hl' : Label.name OLD ≠ l := Ne.symm hl
      simp [lookupLabel, List.find?, hl', hl]
  constructor
  · have hnotin : (rename_columns t (some [(.name OLD, NEW)])).cols.contains
        (Label.name OLD) = false := by
      rw [hcols, Bool.eq_false_iff]
      intro hcont
      rcases List.mem_map.mp (List.elem_iff.mp hcont) with ⟨l, hl, hfl⟩
      by_cases h0 : l = Label.name OLD
      · subst h0
        rw [if_pos rfl] at hfl
        injection hfl with hs
        exact hne hs.symm
      · rw [if_neg h0] at hfl
        exact h0 hfl
    exact delete_columns_unresolved_error _ [Label.name OLD] (Label.name OLD)
      (List.mem_cons_self _ _) (by simpa [resolvesIn] using hnotin)
  · have hin : (rename_columns t (some [(.name OLD, NEW)])).cols.contains
        (Label.name NEW) = true := by
      rw [hcols]
      exact List.elem_iff.mpr
        (List.mem_map.mpr ⟨Label.name OLD, hmem, by rw [if_pos rfl]⟩)
    refine ⟨(rename_columns t (some [(.name OLD, NEW)])).dropCols [Label.name NEW], ?_⟩
    have hres : delete_resolve (rename_columns t (some [(.name OLD, NEW)])).cols
        [Label.name NEW] = some [Label.name NEW] := rfl
    simp only [delete_columns, hres, List.all_cons, List.all_nil, hin, Bool.and_true]
    simp

/-- Witness for claim C6 at a concrete table. -/
theorem rename_applies_before_delete_witness :
    Label.name "Old" ∈ (Table.mk [.name "Old", .name "Keep"] [[.num 1, .num 2]]).cols ∧
    "Old" ≠ "New" ∧
    delete_columns
        (rename_columns (Table.mk [.name "Old", .name "Keep"] [[.num 1, .num 2]])
          (some [(.name "Old", "New")])) (some [.name "Old"]) =
      .error (.runtimeError (delete_error_msg [.name "Old"])) ∧
    ∃ t2, delete_columns
        (rename_columns (Table.mk [.name "Old", .name "Keep"] [[.num 1, .num 2]])
          (some [(.name "Old", "New")])) (some [.name "New"]) = .ok t2 :=
  ⟨by decide, by decide,
    (rename_applies_before_delete (Table.mk [.name "Old", .name "Keep"] [[.num 1, .num 2]])
      "Old" "New" (by decide) (by decide)).1,
    (rename_applies_before_delete (Table.mk [.name "Old", .name "Keep"] [[.num 1, .num 2]])
      "Old" "New" (by decide) (by decide)).2⟩

/-! ## Claim C9 -/

/-- Claim C9 counterexample: in `--rename`, the digit reference `0` is not
interpreted as a zero-based position: on a table with string-named columns
`A, B`, renaming `0:X` leaves the table unchanged, while the positional
reading would rename the first column to `X`. -/
theorem digit_rename_ref_not_positional :
    rename_columns tableC9 (some [(.idx 0, "X")]) = tableC9 ∧
    rename_columns_positional tableC9 [(.idx 0, "X")] =
      ⟨[.name "X", .name "B"], [[.num 1, .num 2]]⟩ ∧
    tableC9 ≠ ⟨[.name "X", .name "B"], [[.num 1, .num 2]]⟩ :=
  ⟨rfl, rfl, by decide⟩

/-- Claim C9 (amended): a digit-only reference is always converted to an
integer and never matched against string column names — so a column whose
literal name is a digit string cannot be addressed — but only `--delete`
(and `--date`) resolve the integer positionally; `--rename` and transform
sources use it as an integer column label, which matches nothing on a
table whose labels are all strings. -/
theorem digit_refs_are_integer_refs :
    (∀ s : String, s ≠ "" → s.data.all Char.isDigit = true →
      toLabel s = .idx (digitsToNat s.data)) ∧
    (∀ (t : Table) (n : Nat) (h : n < t.cols.length),
      delete_columns t (some [.idx n]) = .ok (t.dropCols [t.cols.get ⟨n, h⟩])) ∧
    (∀ (t : Table) (n : Nat) (new : String), Label.idx n ∉ t.cols →
      rename_columns t (some [(.idx n, new)]) = t) ∧
    (∀ (row : Row) (dest : String), row.hasLabel (.idx 5) = false →
      row.hasLabel (.name "5") = true →
      merge_row row "5" dest =
        .error (.runtimeError "merge failed: 5 does not exist in CSV")) := by
  refine ⟨?_, ?_, ?_, ?_⟩
  · intro s hne hdig
    unfold toLabel
    rw [if_pos]
    simp [pyIsNumeric, hne, hdig]
  · intro t n h
    have hg : t.cols[n]? = some (t.cols.get ⟨n, h⟩) := by
      rw [List.getElem?_eq_getElem h]
      rfl
    have hres : delete_resolve t.cols [.idx n] = some [t.cols.get ⟨n, h⟩] := by
      simp only [delete_resolve, hg]
    have hmem : t.cols.contains (t.cols.get ⟨n, h⟩) = true :=
      List.elem_iff.mpr (t.cols.get_mem _ _)
    simp only [delete_columns, hres, List.all_cons, List.all_nil, hmem, Bool.and_true]
    simp
  · intro t n new hn
    exact rename_columns_unresolved t [(.idx n, new)]
      (fun p hp => by
        rcases List.mem_cons.mp hp with he | he
        · rw [he]; exact hn
        · exact absurd he (List.not_mem_nil p))
  · intro row dest h5 _
    have hsplit : (pySplit "5" ';').map toLabel = [Label.idx 5] := rfl
    unfold merge_row col_names_for_transform
    simp only [hsplit, List.all_cons, List.all_nil, h5, Bool.false_and]
    rfl

/-- Witness for the amended claim C9: the four parts at concrete inputs. -/
theorem digit_refs_are_integer_refs_witness :
    toLabel "7" = .idx 7 ∧
    delete_columns tableC9 (some [.idx 0]) =
      .ok (tableC9.dropCols [tableC9.cols.get ⟨0, by decide⟩]) ∧
    rename_columns tableC9 (some [(.idx 3, "X")]) = tableC9 ∧
    merge_row [(.name "5", Cell.num 1)] "5" "T" =
      .error (.runtimeError "merge failed: 5 does not exist in CSV") :=
  ⟨digit_refs_are_integer_refs.1 "7" (by decide) (by decide),
    digit_refs_are_integer_refs.2.1 tableC9 0 (by decide),
    digit_refs_are_integer_refs.2.2.1 tableC9 3 "X" (by decide),
    digit_refs_are_integer_refs.2.2.2 [(.name "5", Cell.num 1)] "T" (by decide) (by decide)⟩

/-! ## Surface of the main loop -/

theorem main_loop_surface (fs : FileSystem) (args : Args) :
    ∀ (pairs : List (String × String)) (written : List String),
      (main_loop fs args pairs written).1 =
        (match first_conversion_error fs args (pairs.map Prod.fst) with
         | none => Surface.okExit0
         | some (.runtimeError m) => Surface.runtimeExit1 m
         | some (.valueError m) => Surface.uncaughtTraceback (.valueError m)) := by
  intro pairs
  induction pairs with
  | nil => intro written; rfl
  | cons p rest ih =>
    intro written
    obtain ⟨c, o⟩ := p
    cases hcv : convert_one fs args c with
    | ok t =>
      simp only [main_loop, hcv, List.map_cons, first_conversion_error]
      exact ih (written ++ [o])
    | error e =>
      cases e with
      | runtimeError m =>
        simp only [main_loop, hcv, List.map_cons, first_conversion_error]
      | valueError m =>
        simp only [main_loop, hcv, List.map_cons, first_conversion_error]

/-! ## Claim C5 -/

/-- Claim C5 counterexample: a fatal error — `POS` applied to a
non-numeric source cell — raises `ValueError`, which `main` does not
catch: it is surfaced as an uncaught-exception traceback rather than a
single-line stderr message. -/
theorem pos_nonnumeric_not_single_line :
    mainModel fsC5 argsC5 =
      (Surface.uncaughtTraceback
        (.valueError "could not convert string to float: 'abc'"), []) ∧
    Surface.singleLineStderr
      (Surface.uncaughtTraceback
        (.valueError "could not convert string to float: 'abc'")) = false :=
  ⟨rfl, rfl⟩

/-- Claim C5 (amended): suppose `--version` is absent, at least one input
is given and the output count matches.  When no conversion fails the
program exits 0; when the first failing conversion raises `RuntimeError`
(missing file, CSV parse error, unresolved column reference in
transform/delete) that error is surfaced as a single-line stderr message
with exit code 1; but when it raises `ValueError` (non-numeric input to
POS/NEG) the exception escapes `main`'s handler and is surfaced as a
traceback — exit code 1, yet not a single-line stderr message. -/
theorem fatal_error_surfacing (fs : FileSystem) (args : Args)
    (hv : args.version = false) (hne : args.csvfile ≠ [])
    (hlen : args.csvfile.length = (output_filenames args).length) :
    (first_conversion_error fs args args.csvfile = none →
      (mainModel fs args).1 = .okExit0 ∧ (mainModel fs args).1.exitCode = 0) ∧
    (∀ m, first_conversion_error fs args args.csvfile = some (.runtimeError m) →
      (mainModel fs args).1 = .runtimeExit1 m ∧
      (mainModel fs args).1.exitCode = 1 ∧
      (mainModel fs args).1.singleLineStderr = true) ∧
    (∀ m, first_conversion_error fs args args.csvfile = some (.valueError m) →
      (mainModel fs args).1 = .uncaughtTraceback (.valueError m) ∧
      (mainModel fs args).1.exitCode = 1 ∧
      (mainModel fs args).1.singleLineStderr = false) := by
  have h0 : ¬ args.version = true := by simp [hv]
  have h1 : ¬ args.csvfile.length = 0 := by
    simpa [List.length_eq_zero] using hne
  have hmain : (mainModel fs args).1 =
      (match first_conversion_error fs args args.csvfile with
       | none => Surface.okExit0
       | some (.runtimeError m) => Surface.runtimeExit1 m
       | some (.valueError m) => Surface.uncaughtTraceback (.valueError m)) := by
    unfold mainModel
    rw [if_neg h0, if_neg h1, if_neg (fun h => h hlen)]
    rw [main_loop_surface fs args (args.csvfile.zip (output_filenames args)) []]
    rw [List.map_fst_zip _ _ (le_of_eq hlen)]
  refine ⟨?_, ?_, ?_⟩
  · intro h; rw [hmain, h]; exact ⟨rfl, rfl⟩
  · intro m hm; rw [hmain, hm]; exact ⟨rfl, rfl, rfl⟩
  · intro m hm; rw [hmain, hm]; exact ⟨rfl, rfl, rfl⟩

/-- Witness for the amended claim C5: the three surfacing regimes at
concrete invocations. -/
theorem fatal_error_surfacing_witness :
    ((mainModel (fsWith "ok.csv" table1) argsW5ok).1 = .okExit0 ∧
      (mainModel (fsWith "ok.csv" table1) argsW5ok).1.exitCode = 0) ∧
    ((mainModel fsEmpty argsW5miss).1 = .runtimeExit1 "missing.csv: file not found" ∧
      (mainModel fsEmpty argsW5miss).1.exitCode = 1 ∧
      (mainModel fsEmpty argsW5miss).1.singleLineStderr = true) ∧
    ((mainModel fsC5 argsC5).1 =
        .uncaughtTraceback (.valueError "could not convert string to float: 'abc'") ∧
      (mainModel fsC5 argsC5).1.exitCode = 1 ∧
      (mainModel fsC5 argsC5).1.singleLineStderr = false) :=
  ⟨(fatal_error_surfacing (fsWith "ok.csv" table1) argsW5ok rfl (by decide) rfl).1 rfl,
    (fatal_error_surfacing fsEmpty argsW5miss rfl (by decide) rfl).2.1
      "missing.csv: file not found" rfl,
    (fatal_error_surfacing fsC5 argsC5 rfl (by decide) rfl).2.2
      "could not convert string to float: 'abc'" rfl⟩

/-! ## Claim C7 -/

/-- Claim C7 counterexample: with `--version`, one `--output` path and no
input files the output count differs from the input count, yet the
program prints the version and exits 0 — not the count-mismatch error. -/
theorem version_bypasses_count_check :
    argsC7.output = some ["a.numbers"] ∧
    argsC7.csvfile.length ≠ (output_filenames argsC7).length ∧
    mainModel fsEmpty argsC7 = (.versionExit0, []) ∧
    Surface.exitCode .versionExit0 = 0 :=
  ⟨rfl, by decide, rfl, rfl⟩

/-- Claim C7 (amended): for every invocation without `--version` and with
at least one input CSV, if `--output` is given with a count different
from the input count, the program stops with the count-mismatch message
on stderr, exit code 1, and writes no output files at all. -/
theorem output_count_mismatch_fatal (fs : FileSystem) (args : Args) (outs : List String)
    (hv : args.version = false) (hne : args.csvfile ≠ [])
    (hout : args.output = some outs) (hmis : args.csvfile.length ≠ outs.length) :
    mainModel fs args =
      (.mismatchExit1 "The numbers of input and output file names do not match", []) ∧
    Surface.exitCode (mainModel fs args).1 = 1 ∧
    Surface.singleLineStderr (mainModel fs args).1 = true := by
  have h0 : ¬ args.version = true := by simp [hv]
  have h1 : ¬ args.csvfile.length = 0 := by
    simpa [List.length_eq_zero] using hne
  have hofn : output_filenames args = outs := by simp [output_filenames, hout]
  have hm : mainModel fs args =
      (.mismatchExit1 "The numbers of input and output file names do not match", []) := by
    unfold mainModel
    rw [if_neg h0, if_neg h1, hofn, if_pos hmis]
  exact ⟨hm, by rw [hm]; rfl, by rw [hm]; rfl⟩

/-- Witness for the amended claim C7: two inputs, one output. -/
theorem output_count_mismatch_fatal_witness :
    mainModel fsEmpty argsW7 =
      (.mismatchExit1 "The numbers of input and output file names do not match", []) :=
  (output_count_mismatch_fatal fsEmpty argsW7 ["o.numbers"] rfl (by decide) rfl
    (by decide)).1

/-! ## Whitespace normalization lemmas -/

theorem collapseWsAux_cons_ws_true (c : Char) (rest : List Char) (hc : isPyWs c = true) :
    collapseWsAux true (c :: rest) = collapseWsAux true rest := by
  simp [collapseWsAux, hc]

theorem collapseWsAux_cons_ws_false (c : Char) (rest : List Char) (hc : isPyWs c = true) :
    collapseWsAux false (c :: rest) = ' ' :: collapseWsAux true rest := by
  simp [collapseWsAux, hc]

theorem collapseWsAux_cons_nonws (b : Bool) (c : Char) (rest : List Char)
    (hc : ¬ isPyWs c = true) :
    collapseWsAux b (c :: rest) = c :: collapseWsAux false rest := by
  cases b <;> simp [collapseWsAux, hc]

theorem headNonWs_dropWhile (l : List Char) :
    headNonWs (l.dropWhile isPyWs) = true := by
  induction l with
  | nil => rfl
  | cons c rest ih =>
    rw [List.dropWhile_cons]
    by_cases hc : isPyWs c
    · rw [if_pos hc]; exact ih
    · rw [if_neg hc]
      simp [headNonWs, hc]

theorem lastNonWs_reverse (l : List Char) : lastNonWs l.reverse = headNonWs l := by
  unfold lastNonWs headNonWs
  rw [List.getLast?_reverse]

theorem headNonWs_reverse (l : List Char) : headNonWs l.reverse = lastNonWs l := by
  unfold lastNonWs headNonWs
  rw [List.head?_reverse]

theorem lastNonWs_cons (c : Char) (l : List Char) (h : l ≠ []) :
    lastNonWs (c :: l) = lastNonWs l := by
  unfold lastNonWs
  cases l with
  | nil => exact absurd rfl h
  | cons d t => rw [List.getLast?_cons_cons]

theorem lastNonWs_dropWhile (l : List Char) (h : lastNonWs l = true) :
    lastNonWs (l.dropWhile isPyWs) = true := by
  induction l with
  | nil => rfl
  | cons c rest ih =>
    rw [List.dropWhile_cons]
    by_cases hc : isPyWs c
    · rw [if_pos hc]
      apply ih
      cases rest with
      | nil => rfl
      | cons d t =>
        rw [← lastNonWs_cons c (d :: t) (by simp)]
        exact h
    · rw [if_neg hc]
      exact h

theorem stripWs_headNonWs (l : List Char) : headNonWs (stripWs l) = true := by
  unfold stripWs
  rw [headNonWs_reverse]
  apply lastNonWs_dropWhile
  rw [lastNonWs_reverse]
  exact headNonWs_dropWhile l

theorem stripWs_lastNonWs (l : List Char) : lastNonWs (stripWs l) = true := by
  unfold stripWs
  rw [lastNonWs_reverse]
  exact headNonWs_dropWhile _

theorem dropWhile_eq_self_of_headNonWs (l : List Char) (h : headNonWs l = true) :
    l.dropWhile isPyWs = l := by
  cases l with
  | nil => rfl
  | cons c rest =>
    rw [List.dropWhile_cons, if_neg]
    simpa [headNonWs] using h

theorem stripWs_eq_self (l : List Char) (hh : headNonWs l = true)
    (hl : lastNonWs l = true) :
    stripWs l = l := by
  unfold stripWs
  rw [dropWhile_eq_self_of_headNonWs l hh,
    dropWhile_eq_self_of_headNonWs l.reverse (by rw [headNonWs_reverse]; exact hl),
    List.reverse_reverse]

theorem allWsSpace_collapseWsAux : ∀ (l : List Char) (b : Bool),
    allWsSpace (collapseWsAux b l) = true
  | [], _ => rfl
  | c :: rest, b => by
    by_cases hc : isPyWs c
    · cases b with
      | true =>
        rw [collapseWsAux_cons_ws_true c rest hc]
        exact allWsSpace_collapseWsAux rest true
      | false =>
        rw [collapseWsAux_cons_ws_false c rest hc]
        have ihr := allWsSpace_collapseWsAux rest true
        simp only [allWsSpace, List.all_cons] at *
        simp [ihr]
    · rw [collapseWsAux_cons_nonws b c rest hc]
      have ihr := allWsSpace_collapseWsAux rest false
      simp only [allWsSpace, List.all_cons] at *
      simp [hc, ihr]

theorem headNonWs_collapseWsAux_true : ∀ l : List Char,
    headNonWs (collapseWsAux true l) = true
  | [] => rfl
  | c :: rest => by
    by_cases hc : isPyWs c
    · rw [collapseWsAux_cons_ws_true c rest hc]
      exact headNonWs_collapseWsAux_true rest
    · rw [collapseWsAux_cons_nonws true c rest hc]
      simp [headNonWs, hc]

theorem noWsPair_cons_of (c : Char) (m : List Char)
    (hm : noWsPair m = true)
    (hhead : ∀ d, m.head? = some d → (isPyWs c && isPyWs d) = false) :
    noWsPair (c :: m) = true := by
  unfold noWsPair
  cases hd : m.head? with
  | none => simpa using hm
  | some d =>
    show (!(isPyWs c && isPyWs d) && noWsPair m) = true
    rw [hhead d hd]
    simpa using hm

theorem noWsPair_collapseWsAux : ∀ (l : List Char) (b : Bool),
    noWsPair (collapseWsAux b l) = true
  | [], _ => rfl
  | c :: rest, b => by
    by_cases hc : isPyWs c
    · cases b with
      | true =>
        rw [collapseWsAux_cons_ws_true c rest hc]
        exact noWsPair_collapseWsAux rest true
      | false =>
        rw [collapseWsAux_cons_ws_false c rest hc]
        apply noWsPair_cons_of
        · exact noWsPair_collapseWsAux rest true
        · intro d hd
          have hh := headNonWs_collapseWsAux_true rest
          unfold headNonWs at hh
          rw [hd] at hh
          simp only [Bool.not_eq_true'] at hh
          simp [hh]
    · rw [collapseWsAux_cons_nonws b c rest hc]
      apply noWsPair_cons_of
      · exact noWsPair_collapseWsAux rest false
      · intro d _
        simp [hc]

theorem collapseWsAux_true_eq_nil (l : List Char)
    (h : collapseWsAux true l = []) : l.all isPyWs = true := by
  induction l with
  | nil => rfl
  | cons c rest ih =>
    by_cases hc : isPyWs c
    · rw [collapseWsAux_cons_ws_true c rest hc] at h
      simp [List.all_cons, hc, ih h]
    · rw [collapseWsAux_cons_nonws true c rest hc] at h
      exact absurd h (by simp)

theorem collapseWsAux_false_ne_nil (l : List Char) (h : l ≠ []) :
    collapseWsAux false l ≠ [] := by
  cases l with
  | nil => exact absurd rfl h
  | cons c rest =>
    by_cases hc : isPyWs c
    · rw [collapseWsAux_cons_ws_false c rest hc]
      simp
    · rw [collapseWsAux_cons_nonws false c rest hc]
      simp

theorem lastNonWs_allWs (l : List Char) (h : l ≠ []) (hall : l.all isPyWs = true) :
    lastNonWs l = false := by
  unfold lastNonWs
  rw [List.getLast?_eq_getLast l h]
  have hmem := List.getLast_mem h
  have := List.all_eq_true.mp hall _ hmem
  simp [this]

theorem lastNonWs_collapseWsAux : ∀ (l : List Char) (b : Bool),
    lastNonWs l = true → lastNonWs (collapseWsAux b l) = true
  | [], _, _ => rfl
  | [c], b, h => by
    have hc : ¬ isPyWs c = true := by
      have hh : lastNonWs [c] = !isPyWs c := rfl
      rw [hh] at h
      simpa using h
    rw [collapseWsAux_cons_nonws b c [] hc]
    exact h
  | c :: d :: t, b, h => by
    have hrest : lastNonWs (d :: t) = true := by
      rw [← lastNonWs_cons c (d :: t) (by simp)]
      exact h
    by_cases hc : isPyWs c
    · cases b with
      | true =>
        rw [collapseWsAux_cons_ws_true c (d :: t) hc]
        exact lastNonWs_collapseWsAux (d :: t) true hrest
      | false =>
        rw [collapseWsAux_cons_ws_false c (d :: t) hc]
        have hm : collapseWsAux true (d :: t) ≠ [] := by
          intro hnil
          have hallws := collapseWsAux_true_eq_nil (d :: t) hnil
          have hf := lastNonWs_allWs (d :: t) (by simp) hallws
          rw [hf] at hrest
          exact absurd hrest (by simp)
        rw [lastNonWs_cons ' ' _ hm]
        exact lastNonWs_collapseWsAux (d :: t) true hrest
    · rw [collapseWsAux_cons_nonws b c (d :: t) hc]
      have hm : collapseWsAux false (d :: t) ≠ [] :=
        collapseWsAux_false_ne_nil (d :: t) (by simp)
      rw [lastNonWs_cons c _ hm]
      exact lastNonWs_collapseWsAux (d :: t) false hrest

theorem headNonWs_collapseWsAux_false (l : List Char) (h : headNonWs l = true) :
    headNonWs (collapseWsAux false l) = true := by
  cases l with
  | nil => rfl
  | cons c rest =>
    have hc : ¬ isPyWs c = true := by simpa [headNonWs] using h
    rw [collapseWsAux_cons_nonws false c rest hc]
    simpa [headNonWs] using h

theorem collapseWsAux_eq_self : ∀ l : List Char,
    allWsSpace l = true → noWsPair l = true →
    ∀ b : Bool, (b = true → headNonWs l = true) → collapseWsAux b l = l
  | [], _, _, _, _ => rfl
  | c :: rest, hsp, hnp, b, hb => by
    have hsp' : allWsSpace rest = true := by
      simp only [allWsSpace, List.all_cons, Bool.and_eq_true] at hsp
      exact hsp.2
    have hnp' : noWsPair rest = true := by
      unfold noWsPair at hnp
      rw [Bool.and_eq_true] at hnp
      exact hnp.2
    by_cases hc : isPyWs c
    · have hcs : c = ' ' := by
        simp only [allWsSpace, List.all_cons, Bool.and_eq_true] at hsp
        have h1 := hsp.1
        simp [hc] at h1
        exact h1
      have hb' : b = false := by
        cases b with
        | false => rfl
        | true =>
          have hcontra := hb rfl
          simp [headNonWs, hc] at hcontra
      subst hb'
      rw [collapseWsAux_cons_ws_false c rest hc]
      have hhr : headNonWs rest = true := by
        unfold noWsPair at hnp
        rw [Bool.and_eq_true] at hnp
        have h1 := hnp.1
        cases hd : rest.head? with
        | none =>
          unfold headNonWs
          rw [hd]
        | some d =>
          rw [hd] at h1
          unfold headNonWs
          rw [hd]
          simp only [hc, Bool.true_and] at h1
          simpa using h1
      rw [collapseWsAux_eq_self rest hsp' hnp' true (fun _ => hhr), hcs]
    · rw [collapseWsAux_cons_nonws b c rest hc,
        collapseWsAux_eq_self rest hsp' hnp' false (fun h => by cases h)]

theorem filter_whitespace_idem (x : Cell) :
    filter_whitespace (filter_whitespace x) = filter_whitespace x := by
  cases x with
  | na => rfl
  | num q => rfl
  | str s =>
    show Cell.str ⟨collapseWs (stripWs (collapseWs (stripWs s.data)))⟩ =
      Cell.str ⟨collapseWs (stripWs s.data)⟩
    set out := collapseWs (stripWs s.data) with hdef
    have hhead : headNonWs out = true :=
      headNonWs_collapseWsAux_false _ (stripWs_headNonWs s.data)
    have hlast : lastNonWs out = true :=
      lastNonWs_collapseWsAux _ false (stripWs_lastNonWs s.data)
    rw [stripWs_eq_self out hhead hlast]
    rw [show collapseWs out = collapseWsAux false out from rfl]
    rw [collapseWsAux_eq_self out (allWsSpace_collapseWsAux _ _)
      (noWsPair_collapseWsAux _ _) false (fun h => by cases h)]

theorem fillna_filter_whitespace (x : Cell) :
    fillnaCell (filter_whitespace (fillnaCell x)) = filter_whitespace (fillnaCell x) := by
  cases x <;> rfl

/-! ## Claim C8 -/

/-- Claim C8: the reformatting pass with whitespace normalization enabled
(and no row reversal) is idempotent: applying it twice gives the same
table as applying it once. -/
theorem reformat_data_ws_no_reverse (t : Table) :
    reformat_data t true false =
      { cols := t.cols,
        rows := (t.rows.map (fun r => r.map fillnaCell)).map
          (fun r => r.map filter_whitespace) } := rfl

theorem reformat_whitespace_idempotent (t : Table) :
    reformat_data (reformat_data t true false) true false =
      reformat_data t true false := by
  have hcell : ∀ x : Cell,
      filter_whitespace (fillnaCell (filter_whitespace (fillnaCell x))) =
        filter_whitespace (fillnaCell x) := by
    intro x
    rw [fillna_filter_whitespace x]
    exact filter_whitespace_idem (fillnaCell x)
  simp only [reformat_data_ws_no_reverse]
  congr 1
  simp only [List.map_map]
  apply List.map_congr_left
  intro r _
  simp only [Function.comp_def, List.map_map]
  apply List.map_congr_left
  intro x _
  exact hcell x

end Csv2Numbers
